import Mathlib

/-
Shallow embedding of the transcript-extracter batch script (src/main.py).

Strings are modelled as lists of characters.  The filesystem is an
association list from paths to file contents; JSON serialization is an
external collaborator, so a written file is recorded structurally as the
document together with the serializer options the code passes
(ensure_ascii = false, indent = 2).  Python floats carry no arithmetic in
this program, so segment times are rationals.  The two external providers
(playlist enumeration via yt-dlp, transcript retrieval) are inputs to the
driver: the enumerator result is an Except value, and the transcript
provider is a function from a video id to either a segment list or one of
the exceptions the source names.
-/

namespace TranscriptExtracter

/-- Whitespace characters removed by Python str.strip (the ASCII ones;
the rare further Unicode whitespace code points are omitted from the model). -/
def isPySpace (c : Char) : Bool :=
  c == ' ' || c == '\t' || c == '\n' || c == '\r' || c == '\x0b' || c == '\x0c'

/-- Python str.strip: drop leading and trailing whitespace. -/
def pyStrip (s : List Char) : List Char :=
  ((s.dropWhile isPySpace).reverse.dropWhile isPySpace).reverse

/-- The reserved characters of sanitize_filename: the Python string
literal consisting of angle brackets, colon, double quote, slash,
backslash, pipe, question mark and asterisk (main.py line 117). -/
def invalidChars : List Char := ['<', '>', ':', '\"', '/', '\\', '|', '?', '*']

/-- Python str.replace with single-character arguments: replace every
occurrence of a by b. -/
def replaceChar (s : List Char) (a b : Char) : List Char :=
  s.map (fun c => if c = a then b else c)

/-- The loop of sanitize_filename: for ch in invalid_chars, replace ch
by an underscore (main.py lines 118-119). -/
def replaceAllInvalid (s : List Char) : List Char :=
  invalidChars.foldl (fun acc a => replaceChar acc a '_') s

/-- sanitize_filename (main.py lines 113-121): replace the reserved
characters, strip, truncate to 150 characters, and fall back to the
literal untitled when the result is the empty (falsy) string. -/
def sanitize_filename (name : List Char) : List Char :=
  if (pyStrip (replaceAllInvalid name)).take 150 = [] then ("untitled".toList)
  else (pyStrip (replaceAllInvalid name)).take 150

/-- os.path.join for a POSIX path with two components. -/
def pathJoin (a b : List Char) : List Char :=
  if b.head? = some '/' then b
  else if a = [] ∨ a.getLast? = some '/' then a ++ b
  else a ++ '/' :: b

/-- A playlist entry as produced by get_videos_from_playlist: the dict
with keys id and title. -/
structure Video where
  id : List Char
  title : List Char
deriving DecidableEq

/-- Configuration constant OUTPUT_DIR (main.py line 24). -/
def OUTPUT_DIR : List Char := "transcripts".toList

/-- Configuration constant BATCH_SIZE (main.py line 31). -/
def BATCH_SIZE : Nat := 100

/-- Configuration constant BATCH_REST_SECONDS (main.py line 32). -/
def BATCH_REST_SECONDS : Nat := 300

/-- build_transcript_filepath (main.py lines 124-138).  The os.makedirs
call only ensures the directory exists and does not affect the returned
path, so it is not part of the value-level model. -/
def build_transcript_filepath (video : Video) (output_dir : List Char) : List Char :=
  let safe_title := sanitize_filename video.title
  let filename := safe_title ++ ("__".toList) ++ video.id ++ (".json".toList)
  pathJoin output_dir filename

/-- One timed-text segment of the raw data returned by the provider
(text, start, duration).  The floats carry no arithmetic here, so they
are modelled as rationals. -/
structure Segment where
  text : List Char
  start : Rat
  duration : Rat
deriving DecidableEq

/-- The dict written by save_transcript (main.py lines 151-155): exactly
the keys video_id, title and segments. -/
structure TranscriptDocument where
  video_id : List Char
  title : List Char
  segments : List Segment
deriving DecidableEq

/-- Contents of a file: either pre-existing raw bytes, or the result of
json.dump of a transcript document with the given ensure_ascii and
indent options. -/
inductive FileContent where
  | raw (bytes : List Char)
  | jsonDump (data : TranscriptDocument) (ensure_ascii : Bool) (indent : Nat)
deriving DecidableEq

/-- The filesystem: an association list from paths to file contents. -/
abbrev FS := List (List Char × FileContent)

/-- os.path.exists on the modelled filesystem. -/
def fsExists (fs : FS) (p : List Char) : Bool :=
  fs.any (fun e => e.1 = p)

/-- Read a file's contents, when present. -/
def fsRead (fs : FS) (p : List Char) : Option FileContent :=
  (fs.find? (fun e => e.1 = p)).map (fun e => e.2)

/-- Writing with mode w: unconditionally overwrite whatever was at p. -/
def fsWrite (fs : FS) (p : List Char) (c : FileContent) : FS :=
  (p, c) :: fs.filter (fun e => ¬ e.1 = p)

/-- The exceptions the transcript provider can raise, as named in the
imports and the except clauses of fetch_transcript_for_video. -/
inductive FetchExn where
  | transcriptsDisabled
  | noTranscriptFound
  | videoUnavailable
  | otherException (message : List Char)
deriving DecidableEq

/-- fetch_transcript_for_video (main.py lines 82-110).  The provider
call either returns the raw segment list or raises; the three named
exception kinds and the final catch-all except Exception clause all
convert the failure into the None result.  The Except codomain records
that an uncaught exception would propagate to the caller. -/
def fetch_transcript_for_video (providerResult : Except FetchExn (List Segment)) :
    Except FetchExn (Option (List Segment)) :=
  match providerResult with
  | Except.ok segments => Except.ok (some segments)
  | Except.error FetchExn.transcriptsDisabled => Except.ok none
  | Except.error FetchExn.noTranscriptFound => Except.ok none
  | Except.error FetchExn.videoUnavailable => Except.ok none
  | Except.error (FetchExn.otherException _) => Except.ok none

/-- save_transcript (main.py lines 141-160): recompute the path, build
the dict with keys video_id, title, segments, and json.dump it with
ensure_ascii=False and indent=2, overwriting any existing file. -/
def save_transcript (video : Video) (segments : List Segment)
    (output_dir : List Char) (fs : FS) : FS :=
  fsWrite fs (build_transcript_filepath video output_dir)
    (FileContent.jsonDump
      { video_id := video.id, title := video.title, segments := segments } false 2)

/-- Observable events of one run, in order: the skip log line, a call
into the fetcher, the no-transcript log line, a file save, the random
inter-item delay sleep, and the long batch-rest sleep. -/
inductive Event where
  | skipped (path : List Char)
  | fetchCalled (videoId : List Char)
  | emptyNoSave (videoId : List Char)
  | savedFile (path : List Char)
  | interDelay
  | longRest
deriving DecidableEq

/-- The for loop of main (main.py lines 182-218), with index the 1-based
enumerate counter and total the length of the whole list.  When the
derived path exists the code sleeps and continues, bypassing the
batch-rest check at the bottom of the loop body; otherwise it fetches,
saves when the result is truthy (not None and not empty), sleeps, and
takes the long rest when index is a multiple of batch_size and not the
last index. -/
def processVideos (provider : List Char → Except FetchExn (List Segment))
    (output_dir : List Char) (batch_size total : Nat) :
    Nat → List Video → FS → Except FetchExn (FS × List Event)
  | _, [], fs => Except.ok (fs, [])
  | index, video :: rest, fs =>
    let existing_path := build_transcript_filepath video output_dir
    if fsExists fs existing_path then
      match processVideos provider output_dir batch_size total (index + 1) rest fs with
      | Except.error e => Except.error e
      | Except.ok (fsEnd, evs) =>
          Except.ok (fsEnd, Event.skipped existing_path :: Event.interDelay :: evs)
    else
      match fetch_transcript_for_video (provider video.id) with
      | Except.error e => Except.error e
      | Except.ok segmentsOpt =>
        let step : FS × List Event :=
          match segmentsOpt with
          | none => (fs, [Event.fetchCalled video.id, Event.emptyNoSave video.id])
          | some segments =>
            if segments = [] then
              (fs, [Event.fetchCalled video.id, Event.emptyNoSave video.id])
            else
              (save_transcript video segments output_dir fs,
               [Event.fetchCalled video.id,
                Event.savedFile (build_transcript_filepath video output_dir)])
        let restEvents : List Event :=
          if index % batch_size = 0 ∧ index < total then [Event.longRest] else []
        match processVideos provider output_dir batch_size total (index + 1) rest step.1 with
        | Except.error e => Except.error e
        | Except.ok (fsEnd, evs) =>
            Except.ok (fsEnd, step.2 ++ Event.interDelay :: (restEvents ++ evs))

/-- An error observable at the boundary of main: the enumerator failure
propagating out, or a fetch exception propagating out (the latter is
provably impossible, see the containment theorem). -/
inductive RunError where
  | sourceUnavailable
  | fetchException (e : FetchExn)
deriving DecidableEq

/-- main (main.py lines 167-220).  The enumeration call has no
surrounding try, so an enumerator failure propagates out of main
uncaught; an empty playlist returns after logging; otherwise the loop
runs with index starting at 1.  The result pairs the final filesystem
with either the event trace or the propagated error.  output_dir and
batch_size are the compiled-in configuration constants OUTPUT_DIR and
BATCH_SIZE, taken as parameters so alternate configurations can be
stated. -/
def mainRun (enumResult : Except Unit (List Video))
    (provider : List Char → Except FetchExn (List Segment))
    (output_dir : List Char) (batch_size : Nat) (fs0 : FS) :
    FS × Except RunError (List Event) :=
  match enumResult with
  | Except.error _ => (fs0, Except.error RunError.sourceUnavailable)
  | Except.ok videos =>
    if videos.length = 0 then (fs0, Except.ok [])
    else
      match processVideos provider output_dir batch_size videos.length 1 videos fs0 with
      | Except.error e => (fs0, Except.error (RunError.fetchException e))
      | Except.ok (fsEnd, evs) => (fsEnd, Except.ok evs)

/-- Reference sanitizer written from the specification text: replace
each character of the reserved set by an underscore in one pass, trim
leading and trailing whitespace, truncate to at most 150 characters,
and substitute the literal untitled when the result is empty. -/
def sanitize_filename_spec (name : List Char) : List Char :=
  if (pyStrip (name.map (fun c => if c ∈ invalidChars then '_' else c))).take 150 = [] then
    ("untitled".toList)
  else (pyStrip (name.map (fun c => if c ∈ invalidChars then '_' else c))).take 150

/-- Number of long rests in a run result (zero for a propagated error). -/
def runLongRestCount (r : Except FetchExn (FS × List Event)) : Nat :=
  match r with
  | Except.ok p => p.2.count Event.longRest
  | Except.error _ => 0

/-- Event trace of a run result (empty for a propagated error). -/
def runEvents (r : Except FetchExn (FS × List Event)) : List Event :=
  match r with
  | Except.ok p => p.2
  | Except.error _ => []

/-- Five fresh sample videos for the batch-rest scenarios. -/
def sampleVideos : List Video :=
  [⟨("v1".toList), ("t1".toList)⟩, ⟨("v2".toList), ("t2".toList)⟩,
   ⟨("v3".toList), ("t3".toList)⟩, ⟨("v4".toList), ("t4".toList)⟩,
   ⟨("v5".toList), ("t5".toList)⟩]

/-- A provider behaviour that always supplies one segment. -/
def sampleProvider : List Char → Except FetchExn (List Segment) :=
  fun _ => Except.ok [⟨("hi".toList), 0, 1⟩]

/-- The playlist of the end-to-end example in the spec: v1 with a title
full of reserved characters, v2 with an empty title. -/
def exampleVideos : List Video :=
  [⟨("v1".toList), ("Intro: A/B?".toList)⟩, ⟨("v2".toList), ("".toList)⟩]

/-- The provider behaviour of the end-to-end example: one segment for
v1, unavailable for v2. -/
def exampleProvider : List Char → Except FetchExn (List Segment) :=
  fun videoId =>
    if videoId = ("v1".toList) then Except.ok [⟨("hi".toList), 0, 1⟩]
    else Except.error FetchExn.noTranscriptFound

/-- One step of replaceChar on a cons cell. -/
theorem replaceChar_cons (c : Char) (s : List Char) (a b : Char) :
    replaceChar (c :: s) a b = (if c = a then b else c) :: replaceChar s a b := rfl

/-- The replacement loop maps the empty name to the empty name. -/
theorem foldl_replaceChar_nil (cs : List Char) :
    cs.foldl (fun acc a => replaceChar acc a '_') [] = [] := by
  induction cs with
  | nil => rfl
  | cons a cs ih => simpa [List.foldl_cons, replaceChar] using ih

/-- The replacement loop acts pointwise: on a cons cell it folds the
character-level replacement over the head and recurses on the tail. -/
theorem foldl_replaceChar_cons (cs : List Char) (c : Char) (s : List Char) :
    cs.foldl (fun acc a => replaceChar acc a '_') (c :: s) =
      (cs.foldl (fun x a => if x = a then '_' else x) c) ::
        cs.foldl (fun acc a => replaceChar acc a '_') s := by
  induction cs generalizing c s with
  | nil => rfl
  | cons a cs ih =>
    simp only [List.foldl_cons, replaceChar_cons]
    exact ih _ _

/-- Folding the character-level replacement over the reserved set sends
a reserved character to an underscore and leaves the rest unchanged. -/
theorem charFold_invalid (c : Char) :
    invalidChars.foldl (fun x a => if x = a then '_' else x) c =
      if c ∈ invalidChars then '_' else c := by
  by_cases h : c ∈ invalidChars
  · rw [if_pos h]
    simp only [invalidChars, List.mem_cons, List.not_mem_nil, or_false] at h
    rcases h with rfl | rfl | rfl | rfl | rfl | rfl | rfl | rfl | rfl <;> decide
  · rw [if_neg h]
    simp only [invalidChars, List.mem_cons, List.not_mem_nil, or_false] at h
    push_neg at h
    obtain ⟨h1, h2, h3, h4, h5, h6, h7, h8, h9⟩ := h
    simp only [invalidChars, List.foldl_cons, List.foldl_nil, if_neg h1, if_neg h2,
      if_neg h3, if_neg h4, if_neg h5, if_neg h6, if_neg h7, if_neg h8, if_neg h9]

/-- The sequential replacement loop of sanitize_filename equals a single
map over the name. -/
theorem replaceAllInvalid_eq_map (s : List Char) :
    replaceAllInvalid s = s.map (fun c => if c ∈ invalidChars then '_' else c) := by
  induction s with
  | nil => simpa [replaceAllInvalid] using foldl_replaceChar_nil invalidChars
  | cons c s ih =>
    simp only [replaceAllInvalid] at ih ⊢
    rw [foldl_replaceChar_cons, charFold_invalid, ih, List.map_cons]

/-- Universal quantification over a list is unchanged by dropWhile with
the same predicate. -/
theorem forall_dropWhile_iff (p : Char → Bool) (s : List Char) :
    (∀ x ∈ s.dropWhile p, p x = true) ↔ (∀ x ∈ s, p x = true) := by
  induction s with
  | nil => simp
  | cons a s ih =>
    by_cases ha : p a
    · simp [List.dropWhile_cons_of_pos ha, ih, ha]
    · simp [List.dropWhile_cons_of_neg ha]

/-- pyStrip yields the empty string exactly when every character of the
input is whitespace. -/
theorem pyStrip_eq_nil_iff (s : List Char) :
    pyStrip s = [] ↔ ∀ c ∈ s, isPySpace c = true := by
  simp only [pyStrip, List.reverse_eq_nil_iff, List.dropWhile_eq_nil_iff]
  constructor
  · intro h c hc
    exact (forall_dropWhile_iff isPySpace s).mp
      (fun x hx => h x (List.mem_reverse.mpr hx)) c hc
  · intro h x hx
    exact h x ((List.dropWhile_sublist isPySpace).subset (List.mem_reverse.mp hx))

/-- pyStrip only removes characters. -/
theorem pyStrip_subset (s : List Char) : pyStrip s ⊆ s := by
  intro x hx
  simp only [pyStrip, List.mem_reverse] at hx
  have h1 := (List.dropWhile_sublist isPySpace).subset hx
  rw [List.mem_reverse] at h1
  exact (List.dropWhile_sublist isPySpace).subset h1

/-- Reading after an overwrite: the written path holds the new content
and every other path is untouched. -/
theorem fsRead_fsWrite (fs : FS) (p : List Char) (c : FileContent) (q : List Char) :
    fsRead (fsWrite fs p c) q = if q = p then some c else fsRead fs q := by
  by_cases hqp : q = p
  · subst hqp
    simp [fsRead, fsWrite]
  · rw [if_neg hqp]
    simp only [fsRead, fsWrite]
    rw [List.find?_cons_of_neg]
    · rw [List.find?_filter]
      congr 2
      funext e
      by_cases he : e.1 = q
      · simp [he, hqp]
      · simp [he]
    · simp [Ne.symm hqp]

/-- Unfolding the loop body on an item whose derived path already
exists: the code logs, sleeps, and continues with the filesystem
unchanged, bypassing the batch-rest check. -/
theorem processVideos_cons_skip (provider : List Char → Except FetchExn (List Segment))
    (output_dir : List Char) (batch_size total index : Nat) (v : Video)
    (rest : List Video) (fs : FS)
    (h : fsExists fs (build_transcript_filepath v output_dir) = true) :
    processVideos provider output_dir batch_size total index (v :: rest) fs =
      Except.map (fun r => (r.1,
          Event.skipped (build_transcript_filepath v output_dir) ::
            Event.interDelay :: r.2))
        (processVideos provider output_dir batch_size total (index + 1) rest fs) := by
  rw [processVideos]
  simp only [h, if_true]
  cases hrec : processVideos provider output_dir batch_size total (index + 1) rest fs with
  | error e => simp [Except.map]
  | ok r => cases r with
    | mk fsEnd evs => simp [Except.map]

/-- Unfolding the loop body on a fresh item for which the fetch result
is falsy (None or the empty list): no save happens, the filesystem is
unchanged, and after the inter-item delay the batch-rest check runs. -/
theorem processVideos_cons_empty (provider : List Char → Except FetchExn (List Segment))
    (output_dir : List Char) (batch_size total index : Nat) (v : Video)
    (rest : List Video) (fs : FS)
    (h : fsExists fs (build_transcript_filepath v output_dir) = false)
    (hfetch : fetch_transcript_for_video (provider v.id) = Except.ok none ∨
              fetch_transcript_for_video (provider v.id) = Except.ok (some [])) :
    processVideos provider output_dir batch_size total index (v :: rest) fs =
      Except.map (fun r => (r.1,
          Event.fetchCalled v.id :: Event.emptyNoSave v.id :: Event.interDelay ::
            ((if index % batch_size = 0 ∧ index < total then [Event.longRest] else [])
              ++ r.2)))
        (processVideos provider output_dir batch_size total (index + 1) rest fs) := by
  rw [processVideos]
  rcases hfetch with hf | hf <;>
    simp only [h, Bool.false_eq_true, if_false, hf] <;>
    cases hrec : processVideos provider output_dir batch_size total (index + 1) rest fs <;>
    simp [hrec, Except.map]

/-- Unfolding the loop body on a fresh item with a non-empty fetch
result: the transcript is saved at the derived path, and after the
inter-item delay the batch-rest check runs. -/
theorem processVideos_cons_save (provider : List Char → Except FetchExn (List Segment))
    (output_dir : List Char) (batch_size total index : Nat) (v : Video)
    (rest : List Video) (fs : FS) (segments : List Segment)
    (h : fsExists fs (build_transcript_filepath v output_dir) = false)
    (hfetch : fetch_transcript_for_video (provider v.id) = Except.ok (some segments))
    (hne : segments ≠ []) :
    processVideos provider output_dir batch_size total index (v :: rest) fs =
      Except.map (fun r => (r.1,
          Event.fetchCalled v.id ::
            Event.savedFile (build_transcript_filepath v output_dir) ::
              Event.interDelay ::
            ((if index % batch_size = 0 ∧ index < total then [Event.longRest] else [])
              ++ r.2)))
        (processVideos provider output_dir batch_size total (index + 1) rest
          (save_transcript v segments output_dir fs)) := by
  rw [processVideos]
  simp only [h, Bool.false_eq_true, if_false, hfetch, if_neg hne]
  cases hrec : processVideos provider output_dir batch_size total (index + 1) rest
      (save_transcript v segments output_dir fs) <;>
    simp [hrec, Except.map]

/-- The sanitized title never contains a path separator. -/
theorem slash_not_mem_sanitize (t : List Char) : '/' ∉ sanitize_filename t := by
  simp only [sanitize_filename]
  by_cases hnil : (pyStrip (replaceAllInvalid t)).take 150 = []
  · rw [if_pos hnil]
    decide
  · rw [if_neg hnil]
    intro hmem
    have h1 : '/' ∈ pyStrip (replaceAllInvalid t) :=
      (List.take_sublist 150 (pyStrip (replaceAllInvalid t))).subset hmem
    have h2 : '/' ∈ replaceAllInvalid t := pyStrip_subset _ h1
    rw [replaceAllInvalid_eq_map] at h2
    rcases List.mem_map.mp h2 with ⟨c, hc, heq⟩
    by_cases hcm : c ∈ invalidChars
    · rw [if_pos hcm] at heq
      exact absurd heq (by decide)
    · rw [if_neg hcm] at heq
      exact hcm (by rw [heq]; decide)

/-- Claim C1: path derivation is deterministic: the derived path is a
pure function of only the display name, the identifier and the output
directory, so the path used for the skip-if-exists check always equals
the path a later save writes to. -/
theorem c1_path_derivation_deterministic (v1 v2 : Video) (d1 d2 : List Char)
    (hid : v1.id = v2.id) (htitle : v1.title = v2.title) (hdir : d1 = d2) :
    build_transcript_filepath v1 d1 = build_transcript_filepath v2 d2 := by
  cases v1
  cases v2
  simp only at hid htitle
  subst hid
  subst htitle
  subst hdir
  rfl

/-- Witness for claim C1 at a concrete input. -/
theorem c1_witness :
    build_transcript_filepath ⟨("a".toList), ("b".toList)⟩ OUTPUT_DIR =
      build_transcript_filepath ⟨("a".toList), ("b".toList)⟩ OUTPUT_DIR :=
  c1_path_derivation_deterministic _ _ _ _ rfl rfl rfl

/-- Claim C2: sanitize_filename equals the reference definition taken
from the spec (replace the reserved characters by underscores, trim
whitespace, truncate to at most 150 characters, fall back to the
literal untitled when empty), and a name longer than 150 characters
after replacement and trimming is truncated to exactly 150. -/
theorem c2_sanitize_matches_reference :
    (∀ name : List Char, sanitize_filename name = sanitize_filename_spec name) ∧
    (∀ name : List Char, 150 < (pyStrip (replaceAllInvalid name)).length →
      (sanitize_filename name).length = 150) := by
  constructor
  · intro name
    simp only [sanitize_filename, sanitize_filename_spec, replaceAllInvalid_eq_map]
  · intro name h
    have hne : (pyStrip (replaceAllInvalid name)).take 150 ≠ [] := by
      intro hnil
      rcases List.take_eq_nil_iff.mp hnil with h0 | h0
      · exact absurd h0 (by decide)
      · rw [h0] at h
        simp at h
    simp only [sanitize_filename, if_neg hne, List.length_take]
    omega

set_option maxRecDepth 4000 in
/-- Witness for claim C2 at a concrete 200-character name. -/
theorem c2_witness :
    sanitize_filename (List.replicate 200 'a') =
      sanitize_filename_spec (List.replicate 200 'a') ∧
    (sanitize_filename (List.replicate 200 'a')).length = 150 :=
  ⟨c2_sanitize_matches_reference.1 (List.replicate 200 'a'),
   c2_sanitize_matches_reference.2 (List.replicate 200 'a') (by decide)⟩

/-- Claim C5: fetch_transcript_for_video never raises: every provider
exception, the three named unavailability kinds and any other exception
alike, is converted to the Unavailable result None, and a provider
success passes through; hence the result is always an ok value. -/
theorem c5_fetch_failure_containment :
    (∀ e : FetchExn, fetch_transcript_for_video (Except.error e) = Except.ok none) ∧
    (∀ segments : List Segment,
      fetch_transcript_for_video (Except.ok segments) = Except.ok (some segments)) ∧
    (∀ providerResult : Except FetchExn (List Segment),
      ∃ result : Option (List Segment),
        fetch_transcript_for_video providerResult = Except.ok result) := by
  refine ⟨fun e => by cases e <;> rfl, fun s => rfl, fun pr => ?_⟩
  cases pr with
  | ok s => exact ⟨some s, rfl⟩
  | error e => exact ⟨none, by cases e <;> rfl⟩

/-- Claim C9: the derived path is the output directory joined with the
sanitized display name, the literal separator of two underscores, the
identifier verbatim, and the json extension; the sanitized name part
never contains a separator, so when the identifier has none either the
whole filename introduces no subdirectory. -/
theorem c9_filename_composition (v : Video) (output_dir : List Char) :
    build_transcript_filepath v output_dir =
      pathJoin output_dir
        (sanitize_filename v.title ++ ("__".toList) ++ v.id ++ (".json".toList)) ∧
    '/' ∉ sanitize_filename v.title ∧
    ('/' ∉ v.id →
      '/' ∉ (sanitize_filename v.title ++ ("__".toList) ++ v.id ++ (".json".toList))) := by
  refine ⟨rfl, slash_not_mem_sanitize v.title, fun hid hmem => ?_⟩
  simp only [List.mem_append] at hmem
  rcases hmem with ((hA | hB) | hC) | hD
  · exact slash_not_mem_sanitize v.title hA
  · exact absurd hB (by decide)
  · exact hid hC
  · exact absurd hD (by decide)

/-- Witness for claim C9 at a concrete input. -/
theorem c9_witness :
    build_transcript_filepath ⟨("abc".toList), ("T".toList)⟩ OUTPUT_DIR =
      pathJoin OUTPUT_DIR
        (sanitize_filename ("T".toList) ++ ("__".toList) ++ ("abc".toList) ++
          (".json".toList)) ∧
    '/' ∉ (sanitize_filename ("T".toList) ++ ("__".toList) ++ ("abc".toList) ++
      (".json".toList)) :=
  ⟨(c9_filename_composition ⟨("abc".toList), ("T".toList)⟩ OUTPUT_DIR).1,
   (c9_filename_composition ⟨("abc".toList), ("T".toList)⟩ OUTPUT_DIR).2.2 (by decide)⟩

/-- Claim C3: idempotent resume.  First conjunct: an item whose derived
path already exists is processed without calling the fetcher and
without touching the filesystem: its only events are the skip log and
the inter-item delay, and the remaining items continue on the very same
filesystem, so the existing file's contents are unchanged by this item.
Second conjunct: when every item's file already exists, the whole run
returns the filesystem unchanged with a pure skip-and-delay trace. -/
theorem c3_idempotent_resume :
    (∀ (provider : List Char → Except FetchExn (List Segment)) (output_dir : List Char)
        (batch_size total index : Nat) (v : Video) (rest : List Video) (fs : FS),
      fsExists fs (build_transcript_filepath v output_dir) = true →
      processVideos provider output_dir batch_size total index (v :: rest) fs =
        Except.map (fun r => (r.1,
            Event.skipped (build_transcript_filepath v output_dir) ::
              Event.interDelay :: r.2))
          (processVideos provider output_dir batch_size total (index + 1) rest fs)) ∧
    (∀ (provider : List Char → Except FetchExn (List Segment)) (output_dir : List Char)
        (batch_size total index : Nat) (videos : List Video) (fs : FS),
      (∀ v ∈ videos, fsExists fs (build_transcript_filepath v output_dir) = true) →
      processVideos provider output_dir batch_size total index videos fs =
        Except.ok (fs, videos.foldr (fun v acc =>
          Event.skipped (build_transcript_filepath v output_dir) ::
            Event.interDelay :: acc) [])) := by
  refine ⟨processVideos_cons_skip, ?_⟩
  intro provider output_dir batch_size total index videos fs
  induction videos generalizing index with
  | nil => intro _; rfl
  | cons v rest ih =>
    intro hall
    rw [processVideos_cons_skip provider output_dir batch_size total index v rest fs
      (hall v (List.mem_cons_self v rest))]
    rw [ih (index + 1) (fun w hw => hall w (List.mem_cons_of_mem v hw))]
    rfl

/-- Witness for claim C3 at a concrete input: one item whose file is
already on disk is skipped and the filesystem comes back unchanged. -/
theorem c3_witness :
    processVideos sampleProvider OUTPUT_DIR 100 1 1
        [⟨("v1".toList), ("t1".toList)⟩]
        [(build_transcript_filepath ⟨("v1".toList), ("t1".toList)⟩ OUTPUT_DIR,
          FileContent.raw [])] =
      Except.ok
        ([(build_transcript_filepath ⟨("v1".toList), ("t1".toList)⟩ OUTPUT_DIR,
           FileContent.raw [])],
         [Event.skipped
            (build_transcript_filepath ⟨("v1".toList), ("t1".toList)⟩ OUTPUT_DIR),
          Event.interDelay]) := by
  have h := c3_idempotent_resume.2 sampleProvider OUTPUT_DIR 100 1 1
    [⟨("v1".toList), ("t1".toList)⟩]
    [(build_transcript_filepath ⟨("v1".toList), ("t1".toList)⟩ OUTPUT_DIR,
      FileContent.raw [])]
    (by
      intro w hw
      simp only [List.mem_singleton] at hw
      subst hw
      decide)
  exact h

/-- Claim C6: skip-on-empty: for an item not yet on disk for which the
fetch result is Unavailable (None) or the empty segment list, the
persister is not called: no event saves a file and the rest of the run
continues on the unchanged filesystem, so no output file is created for
that item. -/
theorem c6_skip_on_empty :
    ∀ (provider : List Char → Except FetchExn (List Segment)) (output_dir : List Char)
      (batch_size total index : Nat) (v : Video) (rest : List Video) (fs : FS),
      fsExists fs (build_transcript_filepath v output_dir) = false →
      (fetch_transcript_for_video (provider v.id) = Except.ok none ∨
       fetch_transcript_for_video (provider v.id) = Except.ok (some [])) →
      processVideos provider output_dir batch_size total index (v :: rest) fs =
        Except.map (fun r => (r.1,
            Event.fetchCalled v.id :: Event.emptyNoSave v.id :: Event.interDelay ::
              ((if index % batch_size = 0 ∧ index < total then [Event.longRest] else [])
                ++ r.2)))
          (processVideos provider output_dir batch_size total (index + 1) rest fs) :=
  processVideos_cons_empty

/-- Witness for claim C6 at a concrete input. -/
theorem c6_witness :
    processVideos (fun _ => Except.error FetchExn.videoUnavailable) OUTPUT_DIR 100 1 1
        [⟨("v1".toList), ("t1".toList)⟩] [] =
      Except.ok ([],
        [Event.fetchCalled ("v1".toList), Event.emptyNoSave ("v1".toList),
         Event.interDelay]) := by
  have h := c6_skip_on_empty (fun _ => Except.error FetchExn.videoUnavailable) OUTPUT_DIR
    100 1 1 ⟨("v1".toList), ("t1".toList)⟩ [] [] (by decide) (Or.inl rfl)
  rw [h]
  rfl

/-- Counterexample to claim C4 as stated: with batch size 2 and five
items where the item in position 2 is already on disk (it ends as
SKIPPED), the run takes only one long rest, not the claimed two. -/
theorem c4_counterexample :
    runLongRestCount (processVideos sampleProvider OUTPUT_DIR 2 5 1 sampleVideos
        [(build_transcript_filepath ⟨("v2".toList), ("t2".toList)⟩ OUTPUT_DIR,
          FileContent.raw [])]) = 1 ∧
    Event.skipped (build_transcript_filepath ⟨("v2".toList), ("t2".toList)⟩ OUTPUT_DIR) ∈
      runEvents (processVideos sampleProvider OUTPUT_DIR 2 5 1 sampleVideos
        [(build_transcript_filepath ⟨("v2".toList), ("t2".toList)⟩ OUTPUT_DIR,
          FileContent.raw [])]) := by
  constructor
  · decide
  · decide

/-- Claim C4 amended: the long rest runs after a BATCH_SIZE-multiple
non-last item only when that item was not skipped: a skipped item
bypasses the batch-rest check entirely, contributing no long rest.
When no item is skipped, the claimed schedule holds: with batch size 2
and five fresh items the trace carries exactly two long rests, placed
right after the inter-item delays of items 2 and 4 and none after
item 5. -/
theorem c4_batch_rest_amended :
    (∀ (provider : List Char → Except FetchExn (List Segment)) (output_dir : List Char)
        (batch_size total index : Nat) (v : Video) (rest : List Video) (fs : FS),
      fsExists fs (build_transcript_filepath v output_dir) = true →
      runLongRestCount
          (processVideos provider output_dir batch_size total index (v :: rest) fs) =
        runLongRestCount
          (processVideos provider output_dir batch_size total (index + 1) rest fs)) ∧
    runEvents (processVideos sampleProvider OUTPUT_DIR 2 5 1 sampleVideos []) =
      [Event.fetchCalled ("v1".toList),
       Event.savedFile (build_transcript_filepath ⟨("v1".toList), ("t1".toList)⟩ OUTPUT_DIR),
       Event.interDelay,
       Event.fetchCalled ("v2".toList),
       Event.savedFile (build_transcript_filepath ⟨("v2".toList), ("t2".toList)⟩ OUTPUT_DIR),
       Event.interDelay,
       Event.longRest,
       Event.fetchCalled ("v3".toList),
       Event.savedFile (build_transcript_filepath ⟨("v3".toList), ("t3".toList)⟩ OUTPUT_DIR),
       Event.interDelay,
       Event.fetchCalled ("v4".toList),
       Event.savedFile (build_transcript_filepath ⟨("v4".toList), ("t4".toList)⟩ OUTPUT_DIR),
       Event.interDelay,
       Event.longRest,
       Event.fetchCalled ("v5".toList),
       Event.savedFile (build_transcript_filepath ⟨("v5".toList), ("t5".toList)⟩ OUTPUT_DIR),
       Event.interDelay] ∧
    runLongRestCount (processVideos sampleProvider OUTPUT_DIR 2 5 1 sampleVideos []) = 2 := by
  refine ⟨?_, by decide, by decide⟩
  intro provider output_dir batch_size total index v rest fs h
  rw [processVideos_cons_skip provider output_dir batch_size total index v rest fs h]
  cases processVideos provider output_dir batch_size total (index + 1) rest fs with
  | error e => rfl
  | ok r => simp [runLongRestCount, Except.map, List.count_cons]

/-- Witness for the amended claim C4 at a concrete skipped item. -/
theorem c4_amended_witness :
    runLongRestCount (processVideos sampleProvider OUTPUT_DIR 2 5 2
        [⟨("v2".toList), ("t2".toList)⟩]
        [(build_transcript_filepath ⟨("v2".toList), ("t2".toList)⟩ OUTPUT_DIR,
          FileContent.raw [])]) =
      runLongRestCount (processVideos sampleProvider OUTPUT_DIR 2 5 3 []
        [(build_transcript_filepath ⟨("v2".toList), ("t2".toList)⟩ OUTPUT_DIR,
          FileContent.raw [])]) :=
  c4_batch_rest_amended.1 sampleProvider OUTPUT_DIR 2 5 2 _ _ _ (by decide)

/-- Counterexample to claim C7 as stated: when the enumerator fails,
main does not end the run normally: the failure comes back as a
propagated error at the boundary of main, not as a logged normal
termination. -/
theorem c7_counterexample :
    mainRun (Except.error ()) sampleProvider OUTPUT_DIR BATCH_SIZE [] =
      ([], Except.error RunError.sourceUnavailable) := rfl

/-- The fetch wrapper's result is always an ok value: no provider
behaviour makes it propagate an exception. -/
theorem fetch_never_error (providerResult : Except FetchExn (List Segment)) :
    ∃ result : Option (List Segment),
      fetch_transcript_for_video providerResult = Except.ok result := by
  cases providerResult with
  | ok segments => exact ⟨some segments, rfl⟩
  | error e => exact ⟨none, by cases e <;> rfl⟩

/-- The loop never aborts: for every item list it returns an ok pair,
and every item is iterated: each item contributes its skip event or its
fetch event to the trace. -/
theorem processVideos_ok (provider : List Char → Except FetchExn (List Segment))
    (output_dir : List Char) (batch_size total : Nat) :
    ∀ (videos : List Video) (index : Nat) (fs : FS),
      ∃ fsEnd evs,
        processVideos provider output_dir batch_size total index videos fs =
          Except.ok (fsEnd, evs) ∧
        ∀ v ∈ videos,
          Event.skipped (build_transcript_filepath v output_dir) ∈ evs ∨
          Event.fetchCalled v.id ∈ evs := by
  intro videos
  induction videos with
  | nil =>
    intro index fs
    exact ⟨fs, [], rfl, by simp⟩
  | cons v rest ih =>
    intro index fs
    by_cases hex : fsExists fs (build_transcript_filepath v output_dir) = true
    · obtain ⟨fsEnd, evs, heq, hcov⟩ := ih (index + 1) fs
      refine ⟨fsEnd, Event.skipped (build_transcript_filepath v output_dir) ::
        Event.interDelay :: evs, ?_, ?_⟩
      · rw [processVideos_cons_skip provider output_dir batch_size total index v rest fs
          hex, heq]
        rfl
      · intro w hw
        rcases List.mem_cons.mp hw with rfl | hw2
        · left
          simp
        · rcases hcov w hw2 with h | h
          · left
            simp [h]
          · right
            simp [h]
    · have hex2 : fsExists fs (build_transcript_filepath v output_dir) = false := by
        cases h3 : fsExists fs (build_transcript_filepath v output_dir)
        · rfl
        · exact absurd h3 hex
      obtain ⟨r, hr⟩ := fetch_never_error (provider v.id)
      cases r with
      | none =>
        obtain ⟨fsEnd, evs, heq, hcov⟩ := ih (index + 1) fs
        refine ⟨fsEnd, Event.fetchCalled v.id :: Event.emptyNoSave v.id ::
          Event.interDelay ::
          ((if index % batch_size = 0 ∧ index < total then [Event.longRest] else [])
            ++ evs), ?_, ?_⟩
        · rw [processVideos_cons_empty provider output_dir batch_size total index v rest
            fs hex2 (Or.inl hr), heq]
          rfl
        · intro w hw
          rcases List.mem_cons.mp hw with rfl | hw2
          · right
            simp
          · rcases hcov w hw2 with h | h
            · left
              simp [h]
            · right
              simp [h]
      | some segments =>
        by_cases hseg : segments = []
        · subst hseg
          obtain ⟨fsEnd, evs, heq, hcov⟩ := ih (index + 1) fs
          refine ⟨fsEnd, Event.fetchCalled v.id :: Event.emptyNoSave v.id ::
            Event.interDelay ::
            ((if index % batch_size = 0 ∧ index < total then [Event.longRest] else [])
              ++ evs), ?_, ?_⟩
          · rw [processVideos_cons_empty provider output_dir batch_size total index v rest
              fs hex2 (Or.inr hr), heq]
            rfl
          · intro w hw
            rcases List.mem_cons.mp hw with rfl | hw2
            · right
              simp
            · rcases hcov w hw2 with h | h
              · left
                simp [h]
              · right
                simp [h]
        · obtain ⟨fsEnd, evs, heq, hcov⟩ :=
            ih (index + 1) (save_transcript v segments output_dir fs)
          refine ⟨fsEnd, Event.fetchCalled v.id ::
            Event.savedFile (build_transcript_filepath v output_dir) ::
            Event.interDelay ::
            ((if index % batch_size = 0 ∧ index < total then [Event.longRest] else [])
              ++ evs), ?_, ?_⟩
          · rw [processVideos_cons_save provider output_dir batch_size total index v rest
              fs segments hex2 hr hseg, heq]
            rfl
          · intro w hw
            rcases List.mem_cons.mp hw with rfl | hw2
            · right
              simp
            · rcases hcov w hw2 with h | h
              · left
                simp [h]
              · right
                simp [h]

/-- Claim C7 amended: when the enumerator cannot resolve the playlist
reference, the run stops before iterating: no item is processed, no
fetch happens and the filesystem is untouched; but the failure is not
caught by the driver: it propagates out of main as an error instead of
a normal zero-item completion.  This remains the only condition that
stops the whole run before iterating: whenever enumeration succeeds,
main ends normally with an ok trace in which every enumerated item was
iterated, contributing its skip event or its fetch event. -/
theorem c7_enumeration_failure_propagates :
    (∀ (provider : List Char → Except FetchExn (List Segment)) (output_dir : List Char)
        (batch_size : Nat) (fs : FS),
      mainRun (Except.error ()) provider output_dir batch_size fs =
        (fs, Except.error RunError.sourceUnavailable)) ∧
    (∀ (provider : List Char → Except FetchExn (List Segment)) (output_dir : List Char)
        (batch_size : Nat) (videos : List Video) (fs : FS),
      ∃ fsEnd evs,
        mainRun (Except.ok videos) provider output_dir batch_size fs =
          (fsEnd, Except.ok evs) ∧
        ∀ v ∈ videos,
          Event.skipped (build_transcript_filepath v output_dir) ∈ evs ∨
          Event.fetchCalled v.id ∈ evs) := by
  refine ⟨fun _ _ _ _ => rfl, ?_⟩
  intro provider output_dir batch_size videos fs
  by_cases hlen : videos.length = 0
  · have hv : videos = [] := List.length_eq_zero.mp hlen
    subst hv
    exact ⟨fs, [], rfl, by simp⟩
  · obtain ⟨fsEnd, evs, heq, hcov⟩ := processVideos_ok provider output_dir batch_size
      videos.length videos 1 fs
    refine ⟨fsEnd, evs, ?_, hcov⟩
    simp only [mainRun, if_neg hlen, heq]

/-- Witness for the amended claim C7 at concrete inputs: a failing
enumeration propagates, and a successful one-item enumeration ends
normally with the item iterated. -/
theorem c7_witness :
    mainRun (Except.error ()) sampleProvider OUTPUT_DIR 100 [] =
      (([] : FS), Except.error RunError.sourceUnavailable) ∧
    ∃ fsEnd evs,
      mainRun (Except.ok [⟨("v1".toList), ("t1".toList)⟩]) sampleProvider OUTPUT_DIR
          100 [] =
        (fsEnd, Except.ok evs) ∧
      (Event.skipped
          (build_transcript_filepath ⟨("v1".toList), ("t1".toList)⟩ OUTPUT_DIR) ∈ evs ∨
       Event.fetchCalled ("v1".toList) ∈ evs) := by
  constructor
  · exact c7_enumeration_failure_propagates.1 sampleProvider OUTPUT_DIR 100 []
  · obtain ⟨fsEnd, evs, heq, hcov⟩ := c7_enumeration_failure_propagates.2 sampleProvider
      OUTPUT_DIR 100 [⟨("v1".toList), ("t1".toList)⟩] []
    exact ⟨fsEnd, evs, heq, hcov _ (by simp)⟩

/-- Claim C8: save_transcript writes at the derived path exactly the
document with keys video_id (the identifier), title (the display name
verbatim) and segments (in given order), serialized with
ensure_ascii=False (non-ASCII preserved) and indent=2, overwriting any
prior content at that path and touching no other path; and the
end-to-end example of the spec produces exactly one file with the
stated name and content and no file for v2. -/
theorem c8_persisted_document_format :
    (∀ (v : Video) (segments : List Segment) (output_dir : List Char) (fs : FS),
      segments ≠ [] →
      fsRead (save_transcript v segments output_dir fs)
          (build_transcript_filepath v output_dir) =
        some (FileContent.jsonDump
          { video_id := v.id, title := v.title, segments := segments } false 2) ∧
      ∀ q : List Char, q ≠ build_transcript_filepath v output_dir →
        fsRead (save_transcript v segments output_dir fs) q = fsRead fs q) ∧
    mainRun (Except.ok exampleVideos) exampleProvider OUTPUT_DIR BATCH_SIZE [] =
      ([(("transcripts/Intro_ A_B___v1.json".toList),
         FileContent.jsonDump
           { video_id := ("v1".toList), title := ("Intro: A/B?".toList),
             segments := [⟨("hi".toList), 0, 1⟩] } false 2)],
       Except.ok
         [Event.fetchCalled ("v1".toList),
          Event.savedFile (("transcripts/Intro_ A_B___v1.json".toList)),
          Event.interDelay,
          Event.fetchCalled ("v2".toList),
          Event.emptyNoSave ("v2".toList),
          Event.interDelay]) := by
  constructor
  · intro v segments output_dir fs hne
    constructor
    · simp [save_transcript, fsRead_fsWrite]
    · intro q hq
      simp [save_transcript, fsRead_fsWrite, hq]
  · rfl

/-- Witness for claim C8 at a concrete input. -/
theorem c8_witness :
    fsRead (save_transcript ⟨("a".toList), ("b".toList)⟩ [⟨("x".toList), 0, 1⟩]
        OUTPUT_DIR [])
      (build_transcript_filepath ⟨("a".toList), ("b".toList)⟩ OUTPUT_DIR) =
      some (FileContent.jsonDump
        { video_id := ("a".toList), title := ("b".toList),
          segments := [⟨("x".toList), 0, 1⟩] } false 2) ∧
    fsRead (save_transcript ⟨("a".toList), ("b".toList)⟩ [⟨("x".toList), 0, 1⟩]
        OUTPUT_DIR []) [] = fsRead ([] : FS) [] :=
  ⟨(c8_persisted_document_format.1 ⟨("a".toList), ("b".toList)⟩ [⟨("x".toList), 0, 1⟩]
      OUTPUT_DIR [] (by simp)).1,
   (c8_persisted_document_format.1 ⟨("a".toList), ("b".toList)⟩ [⟨("x".toList), 0, 1⟩]
      OUTPUT_DIR [] (by simp)).2 [] (by decide)⟩

/-- Taking from a replicated list replicates the smaller count. -/
theorem take_replicate_min (m n : Nat) (a : Char) :
    List.take m (List.replicate n a) = List.replicate (min m n) a := by
  induction n generalizing m with
  | zero => simp
  | succ n ih =>
    cases m with
    | zero => simp
    | succ m =>
      simp [List.replicate_succ, List.take_succ_cons, ih, Nat.succ_min_succ]

/-- No whitespace character is in the reserved set. -/
theorem pySpace_not_invalid (c : Char) (h : isPySpace c = true) : c ∉ invalidChars := by
  intro hm
  simp only [invalidChars, List.mem_cons, List.not_mem_nil, or_false] at hm
  rcases hm with rfl | rfl | rfl | rfl | rfl | rfl | rfl | rfl | rfl <;>
    exact absurd h (by decide)

set_option maxRecDepth 4000 in
/-- Counterexample to claim C10 as stated: a display name of 151
reserved characters sanitizes to 150 underscores, not to the same
number of underscores as characters. -/
theorem c10_counterexample :
    sanitize_filename (List.replicate 151 '?') = List.replicate 150 '_' ∧
    List.replicate 150 '_' ≠ List.replicate 151 '_' := by
  constructor
  · decide
  · decide

/-- Claim C10 amended: a non-empty display name consisting only of
reserved characters sanitizes to underscores, one per character up to
the 150-character truncation (the same number whenever the name has at
most 150 characters), and never to the untitled fallback; the fallback
condition (the stripped replacement being empty) holds exactly when
every character of the original name is whitespace, and whitespace
characters are never reserved, because replacement runs before
trimming and the substituted underscores are not whitespace. -/
theorem c10_reserved_only_names :
    (∀ name : List Char, name ≠ [] → (∀ c ∈ name, c ∈ invalidChars) →
      sanitize_filename name = List.replicate (min name.length 150) '_' ∧
      sanitize_filename name ≠ ("untitled".toList)) ∧
    (∀ name : List Char,
      ((pyStrip (replaceAllInvalid name)).take 150 = [] ↔
        ∀ c ∈ name, isPySpace c = true)) ∧
    (∀ c : Char, isPySpace c = true → c ∉ invalidChars) ∧
    sanitize_filename (("???".toList)) = ("___".toList) := by
  refine ⟨?_, ?_, pySpace_not_invalid, by decide⟩
  · intro name hne hall
    have hlen : 1 ≤ name.length := by
      cases name with
      | nil => exact absurd rfl hne
      | cons a l => simp
    have hrep : replaceAllInvalid name = List.replicate name.length '_' := by
      rw [replaceAllInvalid_eq_map]
      refine List.eq_replicate_iff.mpr ⟨by simp, ?_⟩
      intro b hb
      rcases List.mem_map.mp hb with ⟨c, hc, rfl⟩
      rw [if_pos (hall c hc)]
    have hsp : isPySpace '_' = false := by decide
    have hstrip : pyStrip (List.replicate name.length '_') =
        List.replicate name.length '_' := by
      simp [pyStrip, List.dropWhile_replicate, hsp, List.reverse_replicate]
    have htake : (pyStrip (replaceAllInvalid name)).take 150 =
        List.replicate (min name.length 150) '_' := by
      rw [hrep, hstrip, take_replicate_min, Nat.min_comm]
    have hmin : 1 ≤ min name.length 150 := by omega
    obtain ⟨m, hm⟩ : ∃ m, min name.length 150 = m + 1 :=
      ⟨min name.length 150 - 1, by omega⟩
    have htail : (pyStrip (replaceAllInvalid name)).take 150 ≠ [] := by
      rw [htake, hm, List.replicate_succ]
      simp
    have hsan : sanitize_filename name = List.replicate (min name.length 150) '_' := by
      have htail2 : List.replicate (min name.length 150) '_' ≠ [] := by
        rw [hm, List.replicate_succ]
        simp
      simp only [sanitize_filename, htake, if_neg htail2]
    refine ⟨hsan, ?_⟩
    rw [hsan]
    intro hcontra
    have hh := congrArg List.head? hcontra
    rw [hm, List.replicate_succ] at hh
    have hu : List.head? ("untitled".toList) = some 'u' := rfl
    rw [hu] at hh
    simp only [List.head?_cons, Option.some.injEq] at hh
    exact absurd hh (by decide)
  · intro name
    rw [List.take_eq_nil_iff]
    constructor
    · rintro (h150 | hnil)
      · exact absurd h150 (by decide)
      · intro c hc
        have hforall := (pyStrip_eq_nil_iff (replaceAllInvalid name)).mp hnil
        rw [replaceAllInvalid_eq_map] at hforall
        have hc2 := hforall _ (List.mem_map_of_mem _ hc)
        by_cases hcm : c ∈ invalidChars
        · rw [if_pos hcm] at hc2
          exact absurd hc2 (by decide)
        · rwa [if_neg hcm] at hc2
    · intro hall
      right
      rw [pyStrip_eq_nil_iff]
      intro x hx
      rw [replaceAllInvalid_eq_map] at hx
      rcases List.mem_map.mp hx with ⟨c, hc, rfl⟩
      rw [if_neg (pySpace_not_invalid c (hall c hc))]
      exact hall c hc

/-- Witness for the amended claim C10 at the concrete all-reserved
name of the claim. -/
theorem c10_witness :
    sanitize_filename (("???".toList)) =
      List.replicate (min (("???".toList).length) 150) '_' ∧
    sanitize_filename (("???".toList)) ≠ ("untitled".toList) :=
  c10_reserved_only_names.1 (("???".toList)) (by decide) (by decide)

end TranscriptExtracter
